import Mathlib

/-!
Verification of the `tablr` command-line table formatter (src/tablr.py).

The development shallowly embeds the program's data model and operations:

* Python values that can appear in a parsed row are modelled by `JValue`
  (JSON scalars, arrays, objects; numeric literals are restricted to the
  integer subset, which covers every value the program's contract exercises).
* `print_table`, `parse_data`, `extract_value` and the `TempDB` context
  manager are translated function-by-function from the source; Python
  dictionaries are modelled as association lists with first-insertion order
  and last-write-wins values (`pyDict`), matching `dict` / `OrderedDict`.
* Python string formatting `'{:<w}'` / `'{:^w}'` is modelled by `pyLjust` /
  `pyCenter` (left pad / centred pad with the extra space on the right,
  which is CPython's behaviour for the `^` alignment).
-/

/-- Values the program can hold in a row: the JSON scalars produced by
`json.loads` (with the integer numeric subset), plus arrays and objects.
`null` models Python `None`. -/
inductive JValue where
  | null : JValue
  | bool : Bool → JValue
  | int : Int → JValue
  | str : String → JValue
  | arr : List JValue → JValue
  | obj : List (String × JValue) → JValue

/-- Opening brace character, written via its code point. -/
def lbrace : Char := Char.ofNat 123

/-- Closing brace character, written via its code point. -/
def rbrace : Char := Char.ofNat 125

mutual

/-- Python `repr` of a value (used by `str` for values nested in lists and
dictionaries).  Strings are quoted with a single quote; escaping of quote
characters inside a string is outside the modelled subset. -/
def pyRepr : JValue → String
  | .null => "None"
  | .bool true => "True"
  | .bool false => "False"
  | .int n => toString n
  | .str s => "\x27" ++ s ++ "\x27"
  | .arr xs => "[" ++ String.intercalate ", " (pyReprList xs) ++ "]"
  | .obj kvs =>
      String.mk [lbrace] ++ String.intercalate ", " (pyReprPairs kvs) ++ String.mk [rbrace]

/-- `repr` of each element of a list. -/
def pyReprList : List JValue → List String
  | [] => []
  | v :: vs => pyRepr v :: pyReprList vs

/-- `repr` of each `key: value` member of a dictionary. -/
def pyReprPairs : List (String × JValue) → List String
  | [] => []
  | (k, v) :: kvs => ("\x27" ++ k ++ "\x27: " ++ pyRepr v) :: pyReprPairs kvs

end

/-- Python `str` of a value: the string itself for `str` values, `repr`-style
rendering otherwise (`str(None) = "None"`, `str(True) = "True"`, ...). -/
def pyStr : JValue → String
  | .str s => s
  | v => pyRepr v

/-- A parsed row: a Python dictionary mapping column names to values,
modelled as an association list in insertion order. -/
abbrev Row := List (String × JValue)

/-- Python `dict.get(key, default)`. -/
def dictGet (source : Row) (key : String) (dflt : JValue) : JValue :=
  match source.find? (fun kv => kv.1 == key) with
  | some kv => kv.2
  | none => dflt

/-- Building a Python `dict` / `OrderedDict` from a pair list: repeated
`d[k] = v` keeps the first insertion position of a key and its last value. -/
def pyDictSet {α : Type} (d : List (String × α)) (k : String) (v : α) :
    List (String × α) :=
  if d.any (fun kv => kv.1 == k) then
    d.map (fun kv => if kv.1 == k then (k, v) else kv)
  else
    d ++ [(k, v)]

/-- Python `dict(pairs)` / `OrderedDict(pairs)`. -/
def pyDict {α : Type} (pairs : List (String × α)) : List (String × α) :=
  pairs.foldl (fun d kv => pyDictSet d kv.1 kv.2) []

/-- A run of `n` spaces. -/
def spaces (n : Nat) : String := String.mk (List.replicate n ' ')

/-- Python `s[:n]` for a non-negative bound `n` (the program always slices
with the non-negative `max_cols`). -/
def pySlice (n : Nat) (s : String) : String := String.mk (s.data.take n)

/-- Python `'{:<w}'.format(s)`: left justification, padding with spaces up to
width `w`; strings already at least `w` long are unchanged. -/
def pyLjust (w : Nat) (s : String) : String := s ++ spaces (w - s.length)

/-- Python `'{:^w}'.format(s)`: centring, with the extra space (for an odd
amount of padding) placed on the right. -/
def pyCenter (w : Nat) (s : String) : String :=
  spaces ((w - s.length) / 2) ++ s ++ spaces ((w - s.length) - (w - s.length) / 2)

/-- tablr.py lines 14-20, `_extract_value(source, key, max_size, default)`:
look the key up with the given default, replace `None` by the default,
stringify non-strings, and slice to `max_size` characters.  The program only
ever passes the string `''` as the default. -/
def extract_value (source : Row) (key : String) (max_size : Nat) (dflt : String) :
    String :=
  let value := dictGet source key (.str dflt)
  let value := match value with
    | .null => JValue.str dflt
    | v => v
  pySlice max_size (pyStr value)

/-- Stringified length of an entry's value for one field, as the width loop of
`print_table` computes it: `len(str(entry.get(field, '')))` (line 30). -/
def entryLen (e : Row) (f : String) : Nat := (pyStr (dictGet e f (.str ""))).length

/-- tablr.py lines 26-27: the initial `col_sizes` dictionary
`{field: len(str(label)) for field, label in fields.items()}`, modelled as a
function with the `col_sizes.get(field, 0)` default of `0` outside its keys. -/
def initSizes (fields : List (String × String)) : String → Nat :=
  fields.foldl (fun s kv => Function.update s kv.1 kv.2.length) (fun _ => 0)

/-- tablr.py lines 29-30: the inner loop of the width pass, updating
`col_sizes[field] = max(col_sizes.get(field, 0), len(str(entry.get(field, ''))))`
for every field of one entry. -/
def updateSizes (e : Row) (sizes : String → Nat) (fields : List String) :
    String → Nat :=
  fields.foldl (fun s f => Function.update s f (max (s f) (entryLen e f))) sizes

/-- tablr.py lines 26-30: the full width pass over all entries. -/
def rawSizes (fields : List (String × String)) (entries : List Row) :
    String → Nat :=
  entries.foldl (fun s e => updateSizes e s (fields.map Prod.fst)) (initSizes fields)

/-- tablr.py lines 31-32: clamping every column size to `max_cols`
(`col_sizes[field] = min(size, max_cols)`; the clamp only matters at the
dictionary's keys, which are exactly the field names). -/
def colSizes (fields : List (String × String)) (entries : List Row)
    (max_cols : Nat) : String → Nat :=
  fun f => min (rawSizes fields entries f) max_cols

/-- One `'{:<w}'`-style conversion of the row template: an alignment marker
and a width (tablr.py line 37 builds these with alignment `'<'`). -/
structure FormatSpec where
  align : Char
  width : Nat
deriving DecidableEq, Repr

/-- tablr.py line 37: `value_formats`, one left-justified conversion per
field, with that field's computed width. -/
def valueFormats (fields : List (String × String)) (sizes : String → Nat) :
    List FormatSpec :=
  fields.map (fun kv => FormatSpec.mk '<' (sizes kv.1))

/-- Applying one conversion of the template to one value, following Python
format-spec semantics for the `'<'` and `'^'` alignments. -/
def applySpec (spec : FormatSpec) (s : String) : String :=
  if spec.align = '^' then pyCenter spec.width s
  else if spec.align = '<' then pyLjust spec.width s
  else s

/-- `template.format(*values)` for the template built on line 38: conversions
interleaved with the separator. -/
def formatTemplate (sep : String) (specs : List FormatSpec) (vals : List String) :
    String :=
  String.intercalate sep (List.zipWith applySpec specs vals)

/-- The effect of `template.replace('<', '^')` (line 42) on one conversion:
every `'<'` character of the template string is an alignment marker of a
conversion (or sits in the separator, handled separately). -/
def centerSpec (spec : FormatSpec) : FormatSpec :=
  FormatSpec.mk (if spec.align = '<' then '^' else spec.align) spec.width

/-- The effect of `template.replace('<', '^')` on the separator portions of
the template string. -/
def replaceLtInSep (sep : String) : String :=
  String.mk (sep.data.map (fun c => if c = '<' then '^' else c))

/-- The three printed pieces of a rendered table: the header line, the dashed
rule line, and one line per data row. -/
structure RenderedTable where
  header : String
  rule : String
  body : List String
deriving DecidableEq, Repr

/-- tablr.py lines 22-46, `print_table(entries, fields, max_cols, sep)`:
deduplicate the field pairs through `OrderedDict`, run the width pass, clamp
to `max_cols`, and emit the centred header, the dash rule of length
`sum(col_sizes.values()) + (len(fields) - 1) * len(sep)` (an empty string
when that integer is negative, as for Python `'-' * width`), and one
left-justified line per entry. -/
def print_table (entries : List Row) (fieldsIn : List (String × String))
    (max_cols : Nat) (sep : String) : RenderedTable :=
  let fields := pyDict fieldsIn
  let sizes := colSizes fields entries max_cols
  let width : Int :=
    (fields.map (fun kv => (sizes kv.1 : Int))).sum
      + ((fields.length : Int) - 1) * (sep.length : Int)
  let specs := valueFormats fields sizes
  let truncated_headers := fields.map (fun kv => pySlice max_cols kv.2)
  let header := formatTemplate (replaceLtInSep sep) (specs.map centerSpec)
      truncated_headers
  let rule := String.mk (List.replicate width.toNat '-')
  let body := entries.map (fun e =>
    formatTemplate sep specs
      (fields.map (fun kv => extract_value e kv.1 max_cols "")))
  RenderedTable.mk header rule body

/-- JSON whitespace, as `json.loads` skips it: space, tab, newline, return. -/
def skipWs : List Char → List Char
  | [] => []
  | c :: cs => if c = ' ' ∨ c = '\t' ∨ c = '\n' ∨ c = '\r' then skipWs cs else c :: cs

/-- Body of a JSON string after the opening quote, with the common
single-character escapes (the `\uXXXX` form is outside the modelled subset).
Returns the decoded string and the input after the closing quote. -/
def parseStringBody : Nat → List Char → Option (String × List Char)
  | 0, _ => none
  | _ + 1, [] => none
  | fuel + 1, c :: cs =>
    if c = '"' then some ("", cs)
    else if c = '\\' then
      match cs with
      | [] => none
      | e :: cs2 =>
        let dec : Option Char :=
          if e = '"' then some '"'
          else if e = '\\' then some '\\'
          else if e = '/' then some '/'
          else if e = 'n' then some '\n'
          else if e = 't' then some '\t'
          else if e = 'r' then some '\r'
          else if e = 'b' then some (Char.ofNat 8)
          else if e = 'f' then some (Char.ofNat 12)
          else none
        match dec with
        | some d =>
          (parseStringBody fuel cs2).map (fun p => (String.mk (d :: p.1.data), p.2))
        | none => none
    else (parseStringBody fuel cs).map (fun p => (String.mk (c :: p.1.data), p.2))

/-- Decimal digits to a natural number. -/
def digitsToNat (ds : List Char) : Nat :=
  ds.foldl (fun a c => a * 10 + (c.toNat - 48)) 0

/-- A JSON integer numeral: one or more digits, not followed by a fraction or
exponent marker (fraction and exponent forms — floats — are outside the
modelled subset; the program's contract exercises only integers). -/
def parseNatTok (cs : List Char) : Option (Nat × List Char) :=
  let ds := cs.takeWhile (fun c => c.isDigit)
  let rest := cs.dropWhile (fun c => c.isDigit)
  if ds.isEmpty then none
  else
    match rest with
    | c :: _ => if c = '.' ∨ c = 'e' ∨ c = 'E' then none else some (digitsToNat ds, rest)
    | [] => some (digitsToNat ds, [])

/-- A JSON integer numeral with an optional leading minus sign. -/
def parseIntTok (cs : List Char) : Option (Int × List Char) :=
  match cs with
  | '-' :: rest => (parseNatTok rest).map (fun p => (-(p.1 : Int), p.2))
  | _ => (parseNatTok cs).map (fun p => ((p.1 : Int), p.2))

/-- Task of the recursive-descent JSON parser: a value, the elements of an
array after `[`, or the members of an object after the opening brace (for
the two bracketed tasks, `allowEnd` is true only before the first item, so
a trailing comma is rejected as `json.loads` rejects it). -/
inductive JTask where
  | val : List Char → JTask
  | arrItems : Bool → List Char → JTask
  | objItems : Bool → List Char → JTask

/-- One step of the recursive-descent grammar of `json.loads` on the
embedded subset.  Array-element tasks answer with an `.arr` value and
object-member tasks with an `.obj` value (before dictionary deduplication).
Fuel bounds the recursion; `jsonLoads` supplies enough for any input. -/
def parseStep : Nat → JTask → Option (JValue × List Char)
  | 0, _ => none
  | fuel + 1, .val cs =>
    match skipWs cs with
    | [] => none
    | c :: rest =>
      if c = 'n' then
        match rest with
        | 'u' :: 'l' :: 'l' :: r => some (.null, r)
        | _ => none
      else if c = 't' then
        match rest with
        | 'r' :: 'u' :: 'e' :: r => some (.bool true, r)
        | _ => none
      else if c = 'f' then
        match rest with
        | 'a' :: 'l' :: 's' :: 'e' :: r => some (.bool false, r)
        | _ => none
      else if c = '"' then
        (parseStringBody (rest.length + 1) rest).map (fun p => (.str p.1, p.2))
      else if c = '[' then
        parseStep fuel (.arrItems true (skipWs rest))
      else if c = lbrace then
        match parseStep fuel (.objItems true (skipWs rest)) with
        | some (.obj kvs, r) => some (.obj (pyDict kvs), r)
        | _ => none
      else
        (parseIntTok (c :: rest)).map (fun p => (JValue.int p.1, p.2))
  | fuel + 1, .arrItems allowEnd cs =>
    match cs with
    | ']' :: r => if allowEnd then some (.arr [], r) else none
    | _ =>
      match parseStep fuel (.val cs) with
      | none => none
      | some (v, rest) =>
        match skipWs rest with
        | ',' :: r2 =>
          match parseStep fuel (.arrItems false (skipWs r2)) with
          | some (.arr vs, r3) => some (.arr (v :: vs), r3)
          | _ => none
        | ']' :: r2 => some (.arr [v], r2)
        | _ => none
  | fuel + 1, .objItems allowEnd cs =>
    match cs with
    | [] => none
    | c :: r =>
      if c = rbrace then (if allowEnd then some (.obj [], r) else none)
      else if c = '"' then
        match parseStringBody (r.length + 1) r with
        | none => none
        | some (k, rest) =>
          match skipWs rest with
          | ':' :: r2 =>
            match parseStep fuel (.val r2) with
            | none => none
            | some (v, rest2) =>
              match skipWs rest2 with
              | ',' :: r3 =>
                match parseStep fuel (.objItems false (skipWs r3)) with
                | some (.obj kvs, r4) => some (.obj ((k, v) :: kvs), r4)
                | _ => none
              | more =>
                if more.head? = some rbrace then some (.obj [(k, v)], more.tail)
                else none
          | _ => none
      else none


/-- tablr.py line 56, `json.loads(content)` on the embedded subset: parse one
value and require only whitespace to remain; `none` models a raised
`JSONDecodeError`. -/
def jsonLoads (content : String) : Option JValue :=
  match parseStep (2 * content.length + 4) (.val content.data) with
  | some (v, rest) => if (skipWs rest).isEmpty then some v else none
  | none => none

/-- Python iteration over a parsed value, `for row in data` (line 57): lists
yield their elements, strings their characters, dictionaries their keys;
scalars are not iterable (`none` models the raised `TypeError`). -/
def pyIter : JValue → Option (List JValue)
  | .arr xs => some xs
  | .str s => some (s.data.map (fun c => JValue.str (String.mk [c])))
  | .obj kvs => some (kvs.map (fun kv => JValue.str kv.1))
  | _ => none

/-- `row.keys()` (line 57): defined for dictionaries only; `none` models the
`AttributeError` raised on any other value. -/
def rowKeys : JValue → Option (List String)
  | .obj kvs => some (kvs.map Prod.fst)
  | _ => none

/-- tablr.py line 57, `for row in data: cols.update(row.keys())`: collect the
keys of every row, failing like the loop does on the first row without
`keys()`. -/
def collectKeys : List JValue → Option (List String)
  | [] => some []
  | r :: rs =>
    match rowKeys r with
    | some ks => (collectKeys rs).map (fun rest => ks ++ rest)
    | none => none

/-- Lexicographic comparison of character lists by code point, the order
Python uses to compare strings. -/
def charListLe : List Char → List Char → Bool
  | [], _ => true
  | _ :: _, [] => false
  | a :: as, b :: bs =>
    if a.toNat < b.toNat then true
    else if b.toNat < a.toNat then false
    else charListLe as bs

/-- Python string comparison `a <= b`: code-point lexicographic. -/
def strLe (a b : String) : Bool := charListLe a.data b.data

/-- Python `sorted` order on strings, realised by insertion sort (the
result, a sorted permutation in the code-point lexicographic order, is what
`list.sort` produces). -/
def sortStrings (l : List String) : List String :=
  List.insertionSort (fun a b => strLe a b = true) l

/-- tablr.py lines 55-61: the JSON branch of `parse_data` after a successful
`json.loads` — iterate the value, take the union of every row's keys as a
set, and sort it; `none` models any exception raised inside the `try` block,
which sends `parse_data` to the delimited fallback. -/
def jsonCols (v : JValue) : Option (List String) :=
  match pyIter v with
  | none => none
  | some rows =>
    match collectKeys rows with
    | none => none
    | some ks => some (sortStrings ks.dedup)

/-- Leading spaces of a field, skipped by the dialect's
`skipinitialspace = True` (tablr.py lines 11-12). -/
def dropSpaces : List Char → List Char
  | ' ' :: cs => dropSpaces cs
  | cs => cs

/-- An unquoted stretch of a CSV field: characters up to the next comma.
Returns the field text and, when a comma was found, the input after it. -/
def takeUntilComma : List Char → String × Option (List Char)
  | [] => ("", none)
  | c :: cs =>
    if c = ',' then ("", some cs)
    else
      let p := takeUntilComma cs
      (String.mk (c :: p.1.data), p.2)

/-- The quoted stretch of a CSV field after an opening quote: `""` is a
literal quote (the dialect's `doublequote = True`), a single quote closes
the field text.  Returns the text and the remaining input. -/
def csvQuoted : Nat → List Char → String × List Char
  | 0, cs => ("", cs)
  | _ + 1, [] => ("", [])
  | fuel + 1, c :: cs =>
    if c = '"' then
      match cs with
      | '"' :: cs2 =>
        let p := csvQuoted fuel cs2
        (String.mk ('"' :: p.1.data), p.2)
      | _ => ("", cs)
    else
      let p := csvQuoted fuel cs
      (String.mk (c :: p.1.data), p.2)

/-- Fields of one CSV record, for the reader's dialect (comma delimiter,
double-quote quoting, leading spaces of a field skipped).  Multi-line quoted
fields are outside the modelled subset. -/
def csvRowAux : Nat → List Char → List String
  | 0, _ => []
  | fuel + 1, cs =>
    match dropSpaces cs with
    | '"' :: rest =>
      let q := csvQuoted (rest.length + 1) rest
      let u := takeUntilComma q.2
      match u.2 with
      | some r2 => (q.1 ++ u.1) :: csvRowAux fuel r2
      | none => [q.1 ++ u.1]
    | other =>
      let u := takeUntilComma other
      match u.2 with
      | some r2 => u.1 :: csvRowAux fuel r2
      | none => [u.1]

/-- One line handed to `csv.reader`: an empty line yields the empty record,
any other line is split into fields. -/
def csvRow (line : String) : List String :=
  if line = "" then [] else csvRowAux (line.length + 1) line.data

/-- Newline split of the raw character list (the content is buffered whole
and then iterated line by line). -/
def splitLines : List Char → List (List Char)
  | [] => [[]]
  | c :: cs =>
    let r := splitLines cs
    if c = '\n' then [] :: r
    else
      match r with
      | [] => [[c]]
      | h :: t => (c :: h) :: t

/-- The lines of the buffered input as `io.StringIO` iterates them: no lines
for empty content, and no empty final line after a trailing newline. -/
def pyLines (content : String) : List String :=
  if content = "" then []
  else
    let parts := (splitLines content.data).map (fun l => String.mk l)
    if parts.getLast? = some "" then parts.dropLast else parts

/-- One `DictReader` data row: cells are zipped with the header names; a
short row leaves the remaining header fields at the `restval` default of
`None`.  Cells beyond the header length go to the dictionary's `restkey`
entry, whose key is the Python `None` object — no string column name can
ever look it up, so it is omitted from the model. -/
def dictReaderRow (fieldnames : List String) (cells : List String) : Row :=
  (List.zip fieldnames cells).map (fun p => (p.1, JValue.str p.2))
    ++ (fieldnames.drop cells.length).map (fun f => (f, JValue.null))

/-- tablr.py lines 63-66: the delimited fallback of `parse_data`.  The header
is the first record of the reader — `DictReader.fieldnames` is the Python
`None` object (modelled `none`) when the input has no records at all — and
every later non-blank record becomes a row keyed by the header. -/
def csvParse (content : String) : Option (List String) × JValue :=
  match (pyLines content).map csvRow with
  | [] => (none, .arr [])
  | first :: rest =>
    (some first,
      .arr (((rest.filter (fun r => r ≠ [])).map (dictReaderRow first)).map JValue.obj))

/-- tablr.py lines 48-67, `parse_data` on already-buffered content: try the
JSON branch, and on any exception inside it fall back to the delimited
parser.  The returned data is the parsed JSON value itself on the JSON path
and the list of reader rows on the fallback path. -/
def parse_data (content : String) : Option (List String) × JValue :=
  match jsonLoads content with
  | some v =>
    match jsonCols v with
    | some cols => (some cols, v)
    | none => csvParse content
  | none => csvParse content

/-- tablr.py line 155, `fields=[(col, col) for col in cols]`: the field pairs
handed to `print_table`.  The comprehension iterates `cols`, so a `cols` of
the Python `None` object (modelled `none`) raises a `TypeError` — modelled
by a `none` result — before any rendering happens. -/
def mainFields (cols : Option (List String)) : Option (List (String × String)) :=
  cols.map (fun l => l.map (fun c => (c, c)))

/-- tablr.py lines 146-147, `if args.only_columns: cols = args.only_columns`:
`args.only_columns` is the Python `None` object when `-o` is absent and the
supplied (possibly empty) list when present; the truthiness test keeps the
detected columns for both `None` and the empty list. -/
def projectCols (cols : List String) (only_columns : Option (List String)) :
    List String :=
  match only_columns with
  | some l => if l.isEmpty then cols else l
  | none => cols

/-- Outcomes of the three sqlite calls the query step performs, each of which
either succeeds or raises (sqlite3 is an external engine; for example
`CREATE TABLE` raises on a duplicate or empty column list, and `execute`
raises on malformed SQL). -/
structure SqliteOutcomes where
  createRaises : Bool
  insertRaises : Bool
  queryRaises : Bool
deriving DecidableEq, Repr

/-- Observable result of running the query step of `main`. -/
structure QueryStepTrace where
  connectionOpened : Bool
  connectionClosed : Bool
  raised : Bool
deriving DecidableEq, Repr

/-- tablr.py lines 83-92 and 149-152: `db = TempDB(data, cols); with db:
cols, data = db.query(args.query)` under Python's context-manager protocol.
`__enter__` opens the connection and then runs `_make_table` and
`_insert_data`; an exception inside `__enter__` propagates *without*
`__exit__` ever being invoked, so the connection stays open.  An exception
in the body (`db.query`) runs `__exit__` — which closes the connection —
and then propagates. -/
def tempDBQueryStep (o : SqliteOutcomes) : QueryStepTrace :=
  if o.createRaises then QueryStepTrace.mk true false true
  else if o.insertRaises then QueryStepTrace.mk true false true
  else if o.queryRaises then QueryStepTrace.mk true true true
  else QueryStepTrace.mk true true false

/-- Largest stringified value length a field receives over a list of entries
(zero when there are no entries), the closed form of the width pass. -/
def maxEntryLen (entries : List Row) (f : String) : Nat :=
  entries.foldl (fun a e => max a (entryLen e f)) 0

/-- The rule-line dash count asserted by the spec: the sum of the column
widths plus (number of columns − 1) times the separator length, taken as an
integer.  This definition follows the spec's words, for comparison with
`print_table`. -/
def specRuleCount (entries : List Row) (fieldsIn : List (String × String))
    (max_cols : Nat) (sep : String) : Int :=
  let fields := pyDict fieldsIn
  (fields.map (fun kv => (colSizes fields entries max_cols kv.1 : Int))).sum
    + ((fields.length : Int) - 1) * (sep.length : Int)

lemma foldl_update_not_mem (l : List (String × String)) (g : String → Nat)
    (f : String) (h : f ∉ l.map Prod.fst) :
    (l.foldl (fun s kv => Function.update s kv.1 kv.2.length) g) f = g f := by
  induction l generalizing g with
  | nil => rfl
  | cons kv t ih =>
    simp only [List.map_cons, List.mem_cons] at h
    push_neg at h
    rw [List.foldl_cons, ih _ h.2, Function.update_apply, if_neg h.1]

lemma foldl_update_of_mem (l : List (String × String)) (g : String → Nat)
    (hnd : (l.map Prod.fst).Nodup) (kv : String × String) (hm : kv ∈ l) :
    (l.foldl (fun s p => Function.update s p.1 p.2.length) g) kv.1 = kv.2.length := by
  induction l generalizing g with
  | nil => cases hm
  | cons p t ih =>
    simp only [List.map_cons, List.nodup_cons] at hnd
    rcases List.mem_cons.mp hm with h | h
    · subst h
      rw [List.foldl_cons, foldl_update_not_mem t _ _ hnd.1]
      simp [Function.update_apply]
    · rw [List.foldl_cons]
      exact ih _ hnd.2 h

lemma updateSizes_apply (fields : List String) (e : Row) (s : String → Nat)
    (f : String) :
    updateSizes e s fields f = if f ∈ fields then max (s f) (entryLen e f) else s f := by
  induction fields generalizing s with
  | nil => simp [updateSizes]
  | cons g t ih =>
    rw [show updateSizes e s (g :: t)
        = updateSizes e (Function.update s g (max (s g) (entryLen e g))) t from rfl]
    rw [ih, Function.update_apply]
    by_cases hg : f = g
    · subst hg
      by_cases hf : f ∈ t <;>
        simp [hf, List.mem_cons, Nat.max_assoc]
    · by_cases hf : f ∈ t <;>
        simp [hf, hg, List.mem_cons]

lemma foldl_updateSizes_apply (ks : List String) (entries : List Row) :
    ∀ (s : String → Nat) (f : String),
      (entries.foldl (fun s e => updateSizes e s ks) s) f
        = if f ∈ ks then entries.foldl (fun a e => max a (entryLen e f)) (s f)
          else s f := by
  induction entries with
  | nil =>
    intro s f
    by_cases h : f ∈ ks <;> simp [h]
  | cons e t ih =>
    intro s f
    rw [List.foldl_cons, ih, updateSizes_apply]
    by_cases h : f ∈ ks <;> simp [h]

lemma foldl_max_shift {α : Type} (h : α → Nat) :
    ∀ (l : List α) (a : Nat),
      l.foldl (fun x e => max x (h e)) a = max a (l.foldl (fun x e => max x (h e)) 0)
  | [], a => by simp
  | e :: t, a => by
    rw [List.foldl_cons, List.foldl_cons, foldl_max_shift h t (max a (h e)),
      foldl_max_shift h t (max 0 (h e)), Nat.zero_max, Nat.max_assoc]

lemma pyDictSet_keys {α : Type} (d : List (String × α)) (k : String) (v : α) :
    (pyDictSet d k v).map Prod.fst
      = if d.any (fun kv => kv.1 == k) then d.map Prod.fst
        else d.map Prod.fst ++ [k] := by
  unfold pyDictSet
  split
  · rw [List.map_map]
    apply List.map_congr_left
    intro kv _
    by_cases h : kv.1 = k
    · simp [h]
    · simp [h]
  · simp

lemma foldl_pyDictSet_nodup {α : Type} (pairs : List (String × α)) :
    ∀ d : List (String × α), ((d.map Prod.fst).Nodup) →
      (((pairs.foldl (fun d kv => pyDictSet d kv.1 kv.2) d)).map Prod.fst).Nodup := by
  induction pairs with
  | nil => intro d h; exact h
  | cons p t ih =>
    intro d h
    rw [List.foldl_cons]
    apply ih
    rw [pyDictSet_keys]
    split
    · exact h
    case isFalse hfalse =>
      have hnot : p.1 ∉ d.map Prod.fst := by
        intro hmem
        apply hfalse
        rw [List.any_eq_true]
        obtain ⟨kv, hkv, hEq⟩ := List.mem_map.mp hmem
        exact ⟨kv, hkv, beq_iff_eq.mpr hEq⟩
      simp [List.nodup_append, h, hnot]

lemma pyDict_keys_nodup {α : Type} (pairs : List (String × α)) :
    (((pyDict pairs)).map Prod.fst).Nodup :=
  foldl_pyDictSet_nodup pairs [] (by simp)

lemma colSizes_closed_form (fieldsIn : List (String × String)) (entries : List Row)
    (m : Nat) :
    ∀ kv ∈ pyDict fieldsIn,
      colSizes (pyDict fieldsIn) entries m kv.1
        = min m (max kv.2.length (maxEntryLen entries kv.1)) := by
  intro kv hkv
  have hnd := pyDict_keys_nodup fieldsIn
  have hmem : kv.1 ∈ (pyDict fieldsIn).map Prod.fst := List.mem_map_of_mem _ hkv
  show min (rawSizes (pyDict fieldsIn) entries kv.1) m = _
  unfold rawSizes
  rw [foldl_updateSizes_apply, if_pos hmem,
    show initSizes (pyDict fieldsIn) = List.foldl
      (fun s p => Function.update s p.1 p.2.length) (fun _ => 0) (pyDict fieldsIn) from rfl,
    foldl_update_of_mem _ _ hnd kv hkv, foldl_max_shift, Nat.min_comm]
  rfl

lemma zipWith_map_same {α β γ δ : Type} (f : β → γ → δ) (g : α → β) (h : α → γ) :
    ∀ l : List α, List.zipWith f (l.map g) (l.map h) = l.map (fun x => f (g x) (h x))
  | [] => rfl
  | x :: t => by simp [zipWith_map_same f g h t]

/-- C1 counterexample: for the zero-column table the rendered rule line is
empty (Python `'-' * width` of a negative width), but the spec's formula
`sum of widths + (columns − 1) · len(sep)` evaluates to `-3`, so the dash
count does not equal the formula there. -/
theorem print_table_rule_zero_columns_counterexample :
    ((print_table [] [] 100 " | ").rule.length : Int) ≠ specRuleCount [] [] 100 " | " := by
  decide

/-- C1 (amended): every column's display width equals
`min(max_col_width, max(header length, max over rows of the stringified
value length))`, and — whenever the table has at least one column — the rule
line's dash count equals the sum of the column widths plus
`(number_of_columns − 1) · len(separator)`; the zero-column table instead
renders an empty rule line. -/
theorem print_table_widths_and_rule (entries : List Row)
    (fieldsIn : List (String × String)) (m : Nat) (sep : String) :
    (∀ kv ∈ pyDict fieldsIn,
      colSizes (pyDict fieldsIn) entries m kv.1
        = min m (max kv.2.length (maxEntryLen entries kv.1)))
    ∧ (pyDict fieldsIn ≠ [] →
      ((print_table entries fieldsIn m sep).rule.length : Int)
        = specRuleCount entries fieldsIn m sep) := by
  constructor
  · exact colSizes_closed_form fieldsIn entries m
  · intro hne
    have hlen : 1 ≤ (pyDict fieldsIn).length := List.length_pos.mpr hne
    have hsum : (0:Int) ≤ ((pyDict fieldsIn).map
        (fun kv => (colSizes (pyDict fieldsIn) entries m kv.1 : Int))).sum := by
      apply List.sum_nonneg
      intro x hx
      obtain ⟨kv, _, rfl⟩ := List.mem_map.mp hx
      exact Int.natCast_nonneg _
    have hw0 : (0:Int) ≤ ((pyDict fieldsIn).map
        (fun kv => (colSizes (pyDict fieldsIn) entries m kv.1 : Int))).sum
        + (((pyDict fieldsIn).length : Int) - 1) * (sep.length : Int) := by
      apply add_nonneg hsum
      apply mul_nonneg
      · omega
      · exact Int.natCast_nonneg _
    show ((String.mk (List.replicate _ '-')).length : Int) = _
    rw [show ∀ l : List Char, (String.mk l).length = l.length from fun _ => rfl,
      List.length_replicate, Int.toNat_of_nonneg hw0]
    rfl

/-- Witness for the amended C1 theorem at a one-column table. -/
theorem print_table_widths_and_rule_witness :
    colSizes (pyDict [("x", "x")]) [[("x", JValue.str "abc")]] 100 ("x", "x").1
        = min 100 (max ("x", "x").2.length
            (maxEntryLen [[("x", JValue.str "abc")]] ("x", "x").1))
    ∧ ((print_table [[("x", JValue.str "abc")]] [("x", "x")] 100 " | ").rule.length : Int)
        = specRuleCount [[("x", JValue.str "abc")]] [("x", "x")] 100 " | " :=
  ⟨(print_table_widths_and_rule [[("x", JValue.str "abc")]] [("x", "x")] 100 " | ").1
      ("x", "x") (by decide),
   (print_table_widths_and_rule [[("x", JValue.str "abc")]] [("x", "x")] 100 " | ").2
      (by decide)⟩

lemma charListLe_total : ∀ as bs : List Char,
    charListLe as bs = true ∨ charListLe bs as = true := by
  intro as
  induction as with
  | nil => intro bs; left; rfl
  | cons a at' ih =>
    intro bs
    cases bs with
    | nil => right; rfl
    | cons b bt =>
      simp only [charListLe]
      rcases Nat.lt_trichotomy a.toNat b.toNat with h | h | h
      · left
        rw [if_pos h]
      · have h1 : ¬ a.toNat < b.toNat := by omega
        have h2 : ¬ b.toNat < a.toNat := by omega
        rw [if_neg h1, if_neg h2, if_neg h2, if_neg h1]
        exact ih bt
      · right
        rw [if_pos h]

lemma charListLe_trans : ∀ as bs cs : List Char,
    charListLe as bs = true → charListLe bs cs = true → charListLe as cs = true := by
  intro as
  induction as with
  | nil => intro bs cs _ _; rfl
  | cons a at' ih =>
    intro bs cs hab hbc
    cases bs with
    | nil => simp [charListLe] at hab
    | cons b bt =>
      cases cs with
      | nil => simp [charListLe] at hbc
      | cons c ct =>
        simp only [charListLe] at hab hbc ⊢
        by_cases h1 : a.toNat < b.toNat
        · by_cases h2 : b.toNat < c.toNat
          · rw [if_pos (by omega : a.toNat < c.toNat)]
          · rw [if_neg h2] at hbc
            by_cases h3 : c.toNat < b.toNat
            · rw [if_pos h3] at hbc
              exact absurd hbc (by simp)
            · rw [if_pos (by omega : a.toNat < c.toNat)]
        · rw [if_neg h1] at hab
          by_cases h4 : b.toNat < a.toNat
          · rw [if_pos h4] at hab
            exact absurd hab (by simp)
          · rw [if_neg h4] at hab
            by_cases h2 : b.toNat < c.toNat
            · rw [if_pos (by omega : a.toNat < c.toNat)]
            · rw [if_neg h2] at hbc
              by_cases h3 : c.toNat < b.toNat
              · rw [if_pos h3] at hbc
                exact absurd hbc (by simp)
              · rw [if_neg h3] at hbc
                rw [if_neg (by omega : ¬ a.toNat < c.toNat),
                  if_neg (by omega : ¬ c.toNat < a.toNat)]
                exact ih bt ct hab hbc

instance : IsTotal String (fun a b => strLe a b = true) :=
  ⟨fun a b => charListLe_total a.data b.data⟩

instance : IsTrans String (fun a b => strLe a b = true) :=
  ⟨fun a b c => charListLe_trans a.data b.data c.data⟩

lemma collectKeys_objs (objs : List (List (String × JValue))) :
    collectKeys (objs.map JValue.obj)
      = some ((objs.map (fun o => o.map Prod.fst)).flatten) := by
  induction objs with
  | nil => rfl
  | cons o t ih => simp [collectKeys, rowKeys, ih]

lemma jsonCols_arr_objs (objs : List (List (String × JValue))) :
    jsonCols (JValue.arr (objs.map JValue.obj))
      = some (sortStrings ((objs.map (fun o => o.map Prod.fst)).flatten.dedup)) := by
  simp [jsonCols, pyIter, collectKeys_objs]

/-- C2: for every JSON array of key-value records, the recovered column list
is sorted (code-point lexicographic, the order Python `sort` uses on
strings), duplicate-free, and contains exactly the keys appearing in some
record; on the concrete input `[{"b":1,"a":2},{"c":3}]` the columns come out
as `["a","b","c"]`. -/
theorem parse_data_json_sorted_columns :
    (∀ (objs : List (List (String × JValue))),
      ∃ cols, jsonCols (JValue.arr (objs.map JValue.obj)) = some cols
        ∧ List.Sorted (fun a b : String => strLe a b = true) cols
        ∧ cols.Nodup
        ∧ (∀ k, k ∈ cols ↔ ∃ o ∈ objs, k ∈ o.map Prod.fst))
    ∧ parse_data "[\x7b\"b\":1,\"a\":2\x7d,\x7b\"c\":3\x7d]"
        = (some ["a", "b", "c"],
           JValue.arr [JValue.obj [("b", JValue.int 1), ("a", JValue.int 2)],
             JValue.obj [("c", JValue.int 3)]]) := by
  constructor
  · intro objs
    refine ⟨_, jsonCols_arr_objs objs, ?_, ?_, ?_⟩
    · exact List.sorted_insertionSort _ _
    · exact ((List.perm_insertionSort _ _).nodup_iff).mpr (List.nodup_dedup _)
    · intro k
      rw [sortStrings, List.mem_insertionSort, List.mem_dedup, List.mem_flatten]
      constructor
      · rintro ⟨ks, hks, hk⟩
        obtain ⟨o, ho, rfl⟩ := List.mem_map.mp hks
        exact ⟨o, ho, hk⟩
      · rintro ⟨o, ho, hk⟩
        exact ⟨o.map Prod.fst, List.mem_map_of_mem _ ho, hk⟩
  · rfl

/-- Witness applying the C2 theorem to a concrete pair of records. -/
theorem parse_data_json_sorted_columns_witness :
    ∃ cols, jsonCols (JValue.arr
        ([[("b", JValue.int 1)], [("c", JValue.int 3)]].map JValue.obj)) = some cols
      ∧ List.Sorted (fun a b : String => strLe a b = true) cols
      ∧ cols.Nodup
      ∧ (∀ k, k ∈ cols
          ↔ ∃ o ∈ [[("b", JValue.int 1)], [("c", JValue.int 3)]], k ∈ o.map Prod.fst) :=
  parse_data_json_sorted_columns.1 [[("b", JValue.int 1)], [("c", JValue.int 3)]]

/-- C3: on empty input the delimited fallback leaves `DictReader.fieldnames`
as the Python `None` object, so `parse_data` returns a `None` column set
(not an empty list) with zero rows, and `main` then raises a `TypeError`
while building `fields=[(col, col) for col in cols]` — nothing is rendered.
The renderer itself would handle an empty column set as the claim describes
(blank header line, zero-length rule), but that point is never reached. -/
theorem parse_data_empty_input_crashes :
    parse_data "" = (none, JValue.arr [])
    ∧ mainFields (parse_data "").1 = none
    ∧ print_table [] [] 100 " | " = RenderedTable.mk "" "" [] :=
  ⟨rfl, rfl, rfl⟩

/-- C4: slicing always yields `min(max_size, length)` characters — exactly
`max_col_width` whenever the stringified form is longer — so no extracted
cell exceeds `max_col_width`; on the concrete rows
`[{"x":"ab"},{"x":"abcdef"}]` with header `x` and `max_col_width = 4` the
column width is 4 and the rendered cells are `"ab  "` and `"abcd"`. -/
theorem extract_value_truncation :
    (∀ (m : Nat) (s : String), (pySlice m s).length = min m s.length)
    ∧ (∀ (e : Row) (k : String) (m : Nat) (d : String),
        (extract_value e k m d).length ≤ m)
    ∧ colSizes (pyDict [("x", "x")])
        [[("x", JValue.str "ab")], [("x", JValue.str "abcdef")]] 4 "x" = 4
    ∧ print_table [[("x", JValue.str "ab")], [("x", JValue.str "abcdef")]]
        [("x", "x")] 4 " | "
      = RenderedTable.mk " x  " "----" ["ab  ", "abcd"] := by
  refine ⟨?_, ?_, by decide, rfl⟩
  · intro m s
    exact List.length_take m s.data
  · intro e k m d
    show (pySlice m (pyStr _)).length ≤ m
    rw [show ∀ (n : Nat) (t : String), (pySlice n t).length = (t.data.take n).length
      from fun _ _ => rfl, List.length_take]
    exact Nat.min_le_left _ _

/-- C5: a row with no value for a requested column renders as the empty
string, padded to the column width — never an error or a placeholder. -/
theorem missing_column_renders_empty (e : Row) (k : String) (m w : Nat)
    (h : k ∉ e.map Prod.fst) :
    extract_value e k m "" = ""
    ∧ pyLjust w (extract_value e k m "") = spaces w := by
  have hfind : e.find? (fun kv => kv.1 == k) = none := by
    rw [List.find?_eq_none]
    intro kv hkv
    simp only [beq_iff_eq]
    intro hEq
    exact h (hEq ▸ List.mem_map_of_mem _ hkv)
  have hv : extract_value e k m "" = "" := by
    unfold extract_value dictGet
    rw [hfind]
    show String.mk (List.take m "".data) = ""
    rw [show "".data = ([] : List Char) from rfl, List.take_nil]
  refine ⟨hv, ?_⟩
  rw [hv]
  show "" ++ spaces (w - 0) = spaces w
  rfl

/-- Witness for the C5 theorem: the row `{"a": "1"}` has no `"b"` column. -/
theorem missing_column_renders_empty_witness :
    extract_value [("a", JValue.str "1")] "b" 100 "" = ""
    ∧ pyLjust 3 (extract_value [("a", JValue.str "1")] "b" 100 "") = spaces 3 :=
  missing_column_renders_empty [("a", JValue.str "1")] "b" 100 3 (by decide)

/-- C6: in every rendered table the header line centres each (truncated)
label in its column — the row template's left-justify markers are turned
into centre-justify markers for the header only — while every data line
left-justifies its cells. -/
theorem header_centered_rows_left_justified (entries : List Row)
    (fieldsIn : List (String × String)) (m : Nat) :
    (print_table entries fieldsIn m " | ").header
      = String.intercalate " | " ((pyDict fieldsIn).map
          (fun kv => pyCenter (colSizes (pyDict fieldsIn) entries m kv.1)
            (pySlice m kv.2)))
    ∧ (print_table entries fieldsIn m " | ").body
      = entries.map (fun e => String.intercalate " | " ((pyDict fieldsIn).map
          (fun kv => pyLjust (colSizes (pyDict fieldsIn) entries m kv.1)
            (extract_value e kv.1 m "")))) := by
  constructor
  · show formatTemplate (replaceLtInSep " | ")
        ((valueFormats (pyDict fieldsIn) _).map centerSpec) _ = _
    rw [show replaceLtInSep " | " = " | " from rfl]
    unfold formatTemplate valueFormats
    rw [List.map_map, zipWith_map_same]
    congr 1
  · show entries.map _ = _
    apply List.map_congr_left
    intro e _
    show formatTemplate " | " (valueFormats (pyDict fieldsIn) _) _ = _
    unfold formatTemplate valueFormats
    rw [zipWith_map_same]
    congr 1

/-- C7 counterexample: with `--only-columns` present but given zero names,
`args.only_columns` is the empty list, which is falsy, so the detected
column set is NOT replaced — the claim demands it become the supplied
(empty) list. -/
theorem only_columns_empty_list_counterexample :
    projectCols ["a"] (some []) = ["a"] ∧ ["a"] ≠ ([] : List String) := by
  exact ⟨rfl, by decide⟩

/-- C7 (amended): a non-empty `--only-columns` list unconditionally replaces
the detected column set (row data untouched, as `main` never modifies
`data` in this branch); supplying the option with zero names is falsy in
the `if args.only_columns:` test and leaves the detected columns in place,
as does omitting the option. -/
theorem only_columns_projection (cols l : List String) :
    (l ≠ [] → projectCols cols (some l) = l)
    ∧ projectCols cols (some []) = cols
    ∧ projectCols cols none = cols := by
  refine ⟨?_, rfl, rfl⟩
  intro h
  cases l with
  | nil => exact absurd rfl h
  | cons a t => rfl

/-- Witness for the amended C7 theorem: one supplied name replaces the
detected columns. -/
theorem only_columns_projection_witness :
    projectCols ["x"] (some ["a"]) = ["a"] :=
  (only_columns_projection ["x"] ["a"]).1 (by decide)

/-- Condition under which the `try` block of `parse_data` raises after a
successful `json.loads` — exactly when the loop `for row in data:
cols.update(row.keys())` hits a `TypeError` (value not iterable) or an
`AttributeError` (an iterated element without `keys()`): numbers, booleans
and null are not iterable; iterating a non-empty dictionary yields its
string keys and a non-empty string yields its characters, neither of which
has `keys()`; a list raises exactly when it contains a non-dictionary
element. -/
def jsonAttemptRaises : JValue → Prop
  | .null => True
  | .bool _ => True
  | .int _ => True
  | .str s => s ≠ ""
  | .obj kvs => kvs ≠ []
  | .arr xs => ∃ x ∈ xs, rowKeys x = none

lemma collectKeys_eq_none : ∀ l : List JValue,
    collectKeys l = none ↔ ∃ x ∈ l, rowKeys x = none := by
  intro l
  induction l with
  | nil => simp [collectKeys]
  | cons r rs ih =>
    cases hr : rowKeys r with
    | none => simp [collectKeys, hr]
    | some ks =>
      simp only [collectKeys, hr, List.mem_cons]
      rw [Option.map_eq_none']
      rw [ih]
      constructor
      · rintro ⟨x, hx, hnone⟩
        exact ⟨x, Or.inr hx, hnone⟩
      · rintro ⟨x, hx | hx, hnone⟩
        · rw [hx, hr] at hnone
          cases hnone
        · exact ⟨x, hx, hnone⟩

/-- C8 (amended): `parse_data` falls back to delimited parsing exactly when
the JSON attempt raises — on malformed JSON, and, for JSON that parses, iff
the value fails iteration-with-keys as characterised by
`jsonAttemptRaises`.  Valid JSON that is not a sequence of key-value
records but iterates without yielding a keyless element — the empty object
or the empty string — does NOT fall back. -/
theorem json_fallback_characterisation :
    (∀ content, jsonLoads content = none → parse_data content = csvParse content)
    ∧ (∀ content v, jsonLoads content = some v → jsonCols v = none →
        parse_data content = csvParse content)
    ∧ (∀ v, jsonCols v = none ↔ jsonAttemptRaises v) := by
  refine ⟨?_, ?_, ?_⟩
  · intro content h
    unfold parse_data
    rw [h]
  · intro content v h1 h2
    unfold parse_data
    rw [h1]
    show (match jsonCols v with
      | some cols => (some cols, v)
      | none => csvParse content) = csvParse content
    rw [h2]
  · intro v
    cases v with
    | null => simp [jsonCols, pyIter, jsonAttemptRaises]
    | bool b => simp [jsonCols, pyIter, jsonAttemptRaises]
    | int n => simp [jsonCols, pyIter, jsonAttemptRaises]
    | arr xs =>
      have h1 : jsonCols (.arr xs) = none ↔ collectKeys xs = none := by
        cases h : collectKeys xs <;> simp [jsonCols, pyIter, h]
      rw [h1, collectKeys_eq_none]
      exact Iff.rfl
    | str s =>
      have h1 : jsonCols (.str s) = none
          ↔ collectKeys (s.data.map (fun c => JValue.str (String.mk [c]))) = none := by
        cases h : collectKeys (s.data.map (fun c => JValue.str (String.mk [c]))) <;>
          simp [jsonCols, pyIter, h]
      rw [h1, collectKeys_eq_none]
      show (∃ x ∈ s.data.map (fun c => JValue.str (String.mk [c])), rowKeys x = none)
          ↔ s ≠ ""
      constructor
      · rintro ⟨x, hx, -⟩ hs
        rw [hs, show ("" : String).data = ([] : List Char) from rfl] at hx
        simp at hx
      · intro hs
        rcases hd : s.data with - | ⟨c, cs⟩
        · exfalso
          apply hs
          cases s with
          | mk l =>
            rw [show (String.mk l).data = l from rfl] at hd
            rw [hd]
        · exact ⟨JValue.str (String.mk [c]),
            List.mem_map_of_mem _ (List.mem_cons_self c cs), rfl⟩
    | obj kvs =>
      have h1 : jsonCols (.obj kvs) = none
          ↔ collectKeys (kvs.map (fun kv => JValue.str kv.1)) = none := by
        cases h : collectKeys (kvs.map (fun kv => JValue.str kv.1)) <;>
          simp [jsonCols, pyIter, h]
      rw [h1, collectKeys_eq_none]
      show (∃ x ∈ kvs.map (fun kv => JValue.str kv.1), rowKeys x = none) ↔ kvs ≠ []
      constructor
      · rintro ⟨x, hx, -⟩ hk
        rw [hk] at hx
        simp at hx
      · intro hk
        cases kvs with
        | nil => exact absurd rfl hk
        | cons p t => exact ⟨JValue.str p.1, by simp, rfl⟩

/-- Witness applying the amended C8 theorem: `5` parses as JSON but an
integer is not iterable, so the delimited fallback is taken. -/
theorem json_fallback_characterisation_witness :
    parse_data "5" = csvParse "5" :=
  json_fallback_characterisation.2.1 "5" (JValue.int 5) rfl rfl

/-- C8 counterexample: the input `{}` is valid JSON and is not a sequence of
key-value records, yet `parse_data` does NOT fall back to delimited
parsing: the JSON branch succeeds with zero columns, while the delimited
parser would have produced the single column `{}` — the two results
differ. -/
theorem json_no_fallback_counterexample :
    parse_data "\x7b\x7d" = (some [], JValue.obj [])
    ∧ csvParse "\x7b\x7d" = (some ["\x7b\x7d"], JValue.arr [])
    ∧ (some ([] : List String)) ≠ some ["\x7b\x7d"] := by
  refine ⟨rfl, rfl, by decide⟩

/-- C9 counterexample: when table creation raises inside `__enter__`, the
`with` statement never invokes `__exit__`, so the opened in-memory
connection is not closed on that exit path. -/
theorem tempdb_enter_failure_leaks_counterexample :
    (tempDBQueryStep (SqliteOutcomes.mk true false false)).connectionOpened = true
    ∧ (tempDBQueryStep (SqliteOutcomes.mk true false false)).connectionClosed = false := by
  decide

/-- C9 (amended): the in-memory store is created immediately before the
query step, and the connection is closed exactly when `__enter__` completes
— that is, when the query succeeds or when query execution raises; when
table creation or insertion raises (both run inside `__enter__`), the
connection is left open. -/
theorem tempdb_close_exactly_after_enter (o : SqliteOutcomes) :
    (tempDBQueryStep o).connectionOpened = true
    ∧ (tempDBQueryStep o).connectionClosed = (!o.createRaises && !o.insertRaises)
    ∧ (o.createRaises = false → o.insertRaises = false →
        (tempDBQueryStep o).connectionClosed = true) := by
  rcases o with ⟨c, i, q⟩
  rcases c <;> rcases i <;> rcases q <;> simp [tempDBQueryStep]

/-- Witness for the amended C9 theorem: a failing query still closes the
connection. -/
theorem tempdb_close_exactly_after_enter_witness :
    (tempDBQueryStep (SqliteOutcomes.mk false false true)).connectionClosed = true :=
  (tempdb_close_exactly_after_enter (SqliteOutcomes.mk false false true)).2.2 rfl rfl

/-- C10: a row holding a `None` value renders that cell as the empty string
(exactly like a row missing the column entirely), yet the width pass
stringifies the raw value, so the row contributes `len("None") = 4` to the
column's width — the column can be wider than anything rendered in it, as
the concrete table `[{"x": None}]` with header `x` shows (width 4, data
line four spaces, header just `x` centred). -/
theorem none_value_width_vs_render :
    (∀ (e : Row) (k : String) (m : Nat),
      dictGet e k (JValue.str "") = JValue.null → extract_value e k m "" = "")
    ∧ (∀ (e : Row) (k : String),
      dictGet e k (JValue.str "") = JValue.null → entryLen e k = 4)
    ∧ colSizes (pyDict [("x", "x")]) [[("x", JValue.null)]] 100 "x" = 4
    ∧ print_table [[("x", JValue.null)]] [("x", "x")] 100 " | "
        = RenderedTable.mk " x  " "----" ["    "]
    ∧ extract_value [("x", JValue.null)] "x" 100 ""
        = extract_value [] "x" 100 "" := by
  refine ⟨?_, ?_, by decide, rfl, rfl⟩
  · intro e k m h
    unfold extract_value
    rw [h]
    show String.mk (List.take m "".data) = ""
    rw [show ("" : String).data = ([] : List Char) from rfl, List.take_nil]
  · intro e k h
    unfold entryLen
    rw [h]
    rfl

/-- Witness for the C10 theorem at the row `{"x": None}`. -/
theorem none_value_width_vs_render_witness :
    extract_value [("x", JValue.null)] "x" 7 "" = ""
    ∧ entryLen [("x", JValue.null)] "x" = 4 :=
  ⟨none_value_width_vs_render.1 [("x", JValue.null)] "x" 7 rfl,
   none_value_width_vs_render.2.1 [("x", JValue.null)] "x" rfl⟩
